import Mathlib

/-!
Shallow embedding of the documind core orchestration engine
(`src/core/src/index.ts` of zanhk/documind) and proofs about it.

The external collaborators (`getCompletion`, `formatMarkdown`, file
download/conversion) are injected as abstract function parameters, exactly
as the design treats them: the embedding models the in-repository control
flow of the `documind` function — validators, the in-place sort of the
page-selection array, file-name sanitization, the sequential
(maintain-format) executor, the bounded-parallel executor with
index-addressed result slots, page-number resolution, token accounting,
and the cleanup step.

Asynchronous completion is modelled by an explicit completion order: a
list of work-unit indices giving the order in which the in-flight
completion-adapter calls finish.  All state mutated by the source
(`priorPage`, the token counters, the `results` slots) is threaded
explicitly through that order.
-/

namespace Documind

instance {ε α : Type} [DecidableEq ε] [DecidableEq α] : DecidableEq (Except ε α) := fun a b =>
  match a, b with
  | .error x, .error y =>
    if h : x = y then isTrue (by rw [h]) else isFalse (fun hh => h (Except.error.inj hh))
  | .ok x, .ok y =>
    if h : x = y then isTrue (by rw [h]) else isFalse (fun hh => h (Except.ok.inj hh))
  | .error _, .ok _ => isFalse (fun hh => Except.noConfusion hh)
  | .ok _, .error _ => isFalse (fun hh => Except.noConfusion hh)

/-- Errors are opaque; the source rethrows the adapter error unmodified. -/
abbrev Err := String

/-- Result of one completion-adapter call (`CompletionResponse` in
`src/core/src/types.ts`). -/
structure CompletionResponse where
  content : String
  inputTokens : Nat
  outputTokens : Nat
deriving DecidableEq

/-- The completion adapter (`getCompletion`): given a work-unit index (the
page image) and the `priorPage` argument, it returns a response or fails.
It is an injected external collaborator. -/
abbrev Adapter := Nat → String → Except Err CompletionResponse

/-- The `pagesToConvertAsImages` configuration value:
a plain number (`-1` meaning all pages) or an explicit array. -/
inductive PagesCfg where
  | num (k : Int)
  | arr (l : List Int)
deriving DecidableEq

/-- Ascending sort, modelling `pagesToConvertAsImages.sort((a, b) => a - b)`
at `src/core/src/index.ts:69`. -/
def sortAsc (l : List Int) : List Int :=
  l.insertionSort (· ≤ ·)

/-- The in-place sort at `src/core/src/index.ts:68-70`: an array is sorted
ascending, a plain number is left alone. -/
def sortCfg : PagesCfg → PagesCfg
  | .num k => .num k
  | .arr l => .arr (sortAsc l)

/-- Page-number resolution from `src/core/src/index.ts:193-206`: `-1` maps
index `i` to `i + 1`; an array maps `i` to `array[i]` (which in JavaScript
is `undefined`, here `none`, when `i` is out of bounds); any other number
is used for every page. -/
def resolvePageNumber (cfg : PagesCfg) (i : Nat) : Option Int :=
  match cfg with
  | .num k => if k = -1 then some ((i : Int) + 1) else some k
  | .arr l => l[i]?

/-- One entry of `DocumindOutput.pages` (`Page` in types.ts); `page` is an
`Option` because out-of-bounds array indexing yields `undefined`. -/
structure Page where
  content : String
  page : Option Int
  contentLength : Nat
deriving DecidableEq

/-- The final output (`DocumindOutput` minus the wall-clock
`completionTime`, which is not modelled). -/
structure DocOutput where
  fileName : String
  inputTokens : Nat
  outputTokens : Nat
  pages : List Page
deriving DecidableEq

/-- `aggregatedMarkdown.map((el, i) => ...)` at `src/core/src/index.ts:193-209`,
with the running index made explicit. -/
def formattedPagesAux (cfg : PagesCfg) : Nat → List String → List Page
  | _, [] => []
  | i, el :: rest =>
    { content := el, page := resolvePageNumber cfg i, contentLength := el.length }
      :: formattedPagesAux cfg (i + 1) rest

/-- Building `formattedPages` from the aggregated markdown list. -/
def formattedPages (cfg : PagesCfg) (agg : List String) : List Page :=
  formattedPagesAux cfg 0 agg

/-! ## File-name sanitization (`src/core/src/index.ts:92-98`) -/

/-- JavaScript regex `\w` (no unicode flag): ASCII letters, digits, `_`. -/
def isWordChar (c : Char) : Bool :=
  c.isAlpha || c.isDigit || c = '_'

/-- JavaScript regex `\s` restricted to ASCII whitespace. -/
def isSpaceChar (c : Char) : Bool :=
  c = ' ' || c = '\t' || c = '\n' || c = '\r' || c = '\x0b' || c = '\x0c'

/-- `.replace(/[^\w\s]/g, "")`: drop every character that is neither a
word character nor whitespace. -/
def stripNonWord (l : List Char) : List Char :=
  l.filter (fun c => isWordChar c || isSpaceChar c)

/-- `.replace(/\s+/g, "_")`, one character at a time: the flag records
whether the previous character was whitespace, so each maximal whitespace
run contributes exactly one `_`. -/
def collapseWsAux : Bool → List Char → List Char
  | _, [] => []
  | prevSpace, c :: rest =>
    if isSpaceChar c then
      if prevSpace then collapseWsAux true rest
      else '_' :: collapseWsAux true rest
    else c :: collapseWsAux false rest

/-- `.replace(/\s+/g, "_")`: each maximal whitespace run becomes one `_`. -/
def collapseWs (l : List Char) : List Char :=
  collapseWsAux false l

/-- The sanitization pipeline applied to the raw file name, in source
order: strip non-word characters, collapse whitespace to underscores,
lowercase, truncate to 255 characters. -/
def sanitizeRaw (raw : String) : String :=
  String.mk (((collapseWs (stripNonWord raw.data)).map Char.toLower).take 255)

/-- JavaScript `String.prototype.split` with a one-character separator:
`"".split(sep)` is `[""]`, and a separator at either end contributes an
empty segment. -/
def splitOnChar (sep : Char) : List Char → List (List Char)
  | [] => [[]]
  | c :: rest =>
    if c = sep then [] :: splitOnChar sep rest
    else
      match splitOnChar sep rest with
      | [] => [[c]]
      | h :: t => (c :: h) :: t

/-- `localPath.split("/")[localPath.split("/").length - 1]` at
`src/core/src/index.ts:92`. -/
def lastPathComponent (p : String) : String :=
  String.mk ((splitOnChar '/' p.data).getLastD [])

/-- `endOfPath.split(".")[0]` at `src/core/src/index.ts:93`. -/
def beforeFirstDot (s : String) : String :=
  String.mk ((splitOnChar '.' s.data).headD [])

/-- The `fileName` computation at `src/core/src/index.ts:92-98`. -/
def sanitizeFileName (localPath : String) : String :=
  sanitizeRaw (beforeFirstDot (lastPathComponent localPath))

/-! ## Sequential executor (maintain-format mode, `src/core/src/index.ts:104-130`)

`priorTrace`, `tokenTrace` and `dispatched` are ghost instrumentation: they
record, without affecting the computation, the `priorPage` argument passed
to each dispatched adapter call, the token counts the adapter reported for
each successful call, and which work units were dispatched. -/

structure SeqState where
  priorPage : String
  inputTokenCount : Nat
  outputTokenCount : Nat
  aggregatedMarkdown : List String
  priorTrace : List String
  tokenTrace : List (Nat × Nat)
  dispatched : List Nat
deriving DecidableEq

def initSeqState : SeqState :=
  { priorPage := "", inputTokenCount := 0, outputTokenCount := 0,
    aggregatedMarkdown := [], priorTrace := [], tokenTrace := [], dispatched := [] }

/-- The `for (const image of images)` loop: each unit is dispatched with the
current `priorPage`; on success the formatted markdown is appended and
becomes the new `priorPage`; on failure the error is rethrown and the loop
aborts. -/
def runSeqAux (adapter : Adapter) (fmt : String → String) :
    List Nat → SeqState → SeqState × Option Err
  | [], s => (s, none)
  | i :: rest, s =>
    let s1 := { s with priorTrace := s.priorTrace ++ [s.priorPage],
                       dispatched := s.dispatched ++ [i] }
    match adapter i s.priorPage with
    | .error e => (s1, some e)
    | .ok r =>
      let m := fmt r.content
      runSeqAux adapter fmt rest
        { s1 with priorPage := m,
                  inputTokenCount := s1.inputTokenCount + r.inputTokens,
                  outputTokenCount := s1.outputTokenCount + r.outputTokens,
                  aggregatedMarkdown := s1.aggregatedMarkdown ++ [m],
                  tokenTrace := s1.tokenTrace ++ [(r.inputTokens, r.outputTokens)] }

/-- Sequential run over work units `0, …, n-1` in index order. -/
def runSeq (adapter : Adapter) (fmt : String → String) (n : Nat) : SeqState × Option Err :=
  runSeqAux adapter fmt (List.range n) initSeqState

/-! ## Bounded-parallel executor (`src/core/src/index.ts:133-178`)

`processPagesInBatches` writes each unit's result into `results[index]`;
completion order is arbitrary and is modelled by an explicit `order` list.
`processPage` rethrows adapter errors, so the `Promise.all` rejects with
the first error in completion order. -/

structure ParState where
  results : List (Option String)
  priorPage : String
  inputTokenCount : Nat
  outputTokenCount : Nat
  tokenTrace : List (Nat × Nat)
deriving DecidableEq

/-- Process completions in the given completion order: each completing unit
`j` calls the adapter with the current (racy) `priorPage`, updates the
counters and `priorPage`, and stores its formatted result in slot `j`. -/
def runParAux (adapter : Adapter) (fmt : String → String) :
    List Nat → ParState → ParState × Option Err
  | [], s => (s, none)
  | j :: rest, s =>
    match adapter j s.priorPage with
    | .error e => (s, some e)
    | .ok r =>
      let m := fmt r.content
      runParAux adapter fmt rest
        { results := s.results.set j (some m), priorPage := m,
          inputTokenCount := s.inputTokenCount + r.inputTokens,
          outputTokenCount := s.outputTokenCount + r.outputTokens,
          tokenTrace := s.tokenTrace ++ [(r.inputTokens, r.outputTokens)] }

/-- Parallel run over `n` work units whose completions finish in `order`. -/
def runPar (adapter : Adapter) (fmt : String → String) (n : Nat)
    (order : List Nat) : ParState × Option Err :=
  runParAux adapter fmt order
    { results := List.replicate n none, priorPage := "",
      inputTokenCount := 0, outputTokenCount := 0, tokenTrace := [] }

/-! ## The `documind` entry point (`src/core/src/index.ts:16-218`) -/

/-- Arguments of `documind` relevant to the core: `localPath` is the local
path the download collaborator saved the input to, and `n` is the number of
converted page images found in the temp directory. -/
structure DocArgs where
  cleanup : Bool
  maintainFormat : Bool
  openaiAPIKey : String
  filePath : String
  localPath : String
  pagesToConvertAsImages : PagesCfg
  n : Nat
deriving DecidableEq

/-- Observable outcome of one `documind` call: the returned output or the
thrown error, whether the temporary directory was removed, and the state of
the caller's `pagesToConvertAsImages` value after the call (the source
sorts a caller-supplied array in place). -/
structure DocumindResult where
  output : Except Err DocOutput
  tempDirRemoved : Bool
  pagesArgAfterCall : PagesCfg
deriving DecidableEq

/-- The `documind` control flow: validators (before the sort), the in-place
sort of an array-valued `pagesToConvertAsImages`, file-name sanitization,
the mode branch, and — only on the success path — the cleanup step
(`if (cleanup) await fs.remove(tempDirectory)` at line 188 is never reached
when the run throws). -/
def documind (args : DocArgs) (adapter : Adapter) (fmt : String → String)
    (order : List Nat) : DocumindResult :=
  if args.openaiAPIKey = "" then
    { output := .error "Missing OpenAI API key", tempDirRemoved := false,
      pagesArgAfterCall := args.pagesToConvertAsImages }
  else if args.filePath = "" then
    { output := .error "Missing file path", tempDirRemoved := false,
      pagesArgAfterCall := args.pagesToConvertAsImages }
  else
    let cfg := sortCfg args.pagesToConvertAsImages
    let fileName := sanitizeFileName args.localPath
    let runResult : Except Err (List String × Nat × Nat) :=
      if args.maintainFormat then
        match runSeq adapter fmt args.n with
        | (_, some e) => .error e
        | (s, none) => .ok (s.aggregatedMarkdown, s.inputTokenCount, s.outputTokenCount)
      else
        match runPar adapter fmt args.n order with
        | (_, some e) => .error e
        | (s, none) => .ok (s.results.filterMap id, s.inputTokenCount, s.outputTokenCount)
    match runResult with
    | .error e =>
      { output := .error e, tempDirRemoved := false, pagesArgAfterCall := cfg }
    | .ok (agg, inTok, outTok) =>
      { output := .ok { fileName := fileName, inputTokens := inTok,
                        outputTokens := outTok, pages := formattedPages cfg agg },
        tempDirRemoved := args.cleanup, pagesArgAfterCall := cfg }

/-! ## Generic helper lemmas about index-addressed slot updates -/

/-- Folding `set` over a list of indices does not change the length. -/
theorem foldl_set_length {α : Type} (f : Nat → α) :
    ∀ (order : List Nat) (init : List α),
      (order.foldl (fun res j => res.set j (f j)) init).length = init.length := by
  intro order
  induction order with
  | nil => intro init; rfl
  | cons j rest ih =>
    intro init
    simp only [List.foldl_cons]
    rw [ih, List.length_set]

/-- A slot whose index is never written keeps its initial value. -/
theorem foldl_set_getElem_not_mem {α : Type} (f : Nat → α) :
    ∀ (order : List Nat) (init : List α) (i : Nat), i ∉ order →
      (order.foldl (fun res j => res.set j (f j)) init)[i]? = init[i]? := by
  intro order
  induction order with
  | nil => intro init i _; rfl
  | cons j rest ih =>
    intro init i hi
    have hne : j ≠ i := by
      intro h
      subst h
      exact hi (List.mem_cons_self j rest)
    simp only [List.foldl_cons]
    rw [ih _ _ (fun h => hi (List.mem_cons_of_mem _ h)), List.getElem?_set_ne hne]

/-- A slot whose index is written (possibly several times) ends up holding
the value written for that index. -/
theorem foldl_set_getElem_mem {α : Type} (f : Nat → α) :
    ∀ (order : List Nat) (init : List α) (i : Nat), i ∈ order → i < init.length →
      (order.foldl (fun res j => res.set j (f j)) init)[i]? = some (f i) := by
  intro order
  induction order with
  | nil => intro init i hi; exact absurd hi (List.not_mem_nil i)
  | cons j rest ih =>
    intro init i hi hlen
    simp only [List.foldl_cons]
    by_cases hmem : i ∈ rest
    · exact ih _ _ hmem (by rw [List.length_set]; exact hlen)
    · have hij : i = j := by
        rcases List.mem_cons.mp hi with h | h
        · exact h
        · exact absurd h hmem
      subst hij
      rw [foldl_set_getElem_not_mem f rest _ _ hmem,
          List.getElem?_set_self', List.getElem?_eq_getElem hlen]
      rfl

/-- `filterMap id` undoes wrapping every element in `some`. -/
theorem filterMap_id_map_some {α β : Type} (g : α → β) (l : List α) :
    (l.map (fun x => some (g x))).filterMap id = l.map g := by
  induction l with
  | nil => rfl
  | cons x rest ih => simp [ih]

/-! ## Characterization of the parallel executor -/

/-- Full characterization of `runParAux` when every adapter call succeeds
with a response determined by the work-unit index: no error is produced,
each completing unit writes its formatted content into its own slot, and
the counters accumulate the reported tokens in completion order. -/
theorem runParAux_okA (adapter : Adapter) (fmt : String → String)
    (A : Nat → CompletionResponse) (hA : ∀ i p, adapter i p = Except.ok (A i)) :
    ∀ (order : List Nat) (s : ParState),
      runParAux adapter fmt order s =
        ({ results := order.foldl (fun res j => res.set j (some (fmt (A j).content))) s.results,
           priorPage := order.foldl (fun _ j => fmt (A j).content) s.priorPage,
           inputTokenCount := s.inputTokenCount + (order.map fun j => (A j).inputTokens).sum,
           outputTokenCount := s.outputTokenCount + (order.map fun j => (A j).outputTokens).sum,
           tokenTrace :=
             s.tokenTrace ++ order.map fun j => ((A j).inputTokens, (A j).outputTokens) },
         none) := by
  intro order
  induction order with
  | nil => intro s; simp [runParAux]
  | cons j rest ih =>
    intro s
    rw [runParAux, hA j s.priorPage]
    simp only [ih, List.foldl_cons, List.map_cons, List.sum_cons]
    simp [Nat.add_assoc, List.append_assoc]

/-- Under a completion order that is a permutation of all work units, the
parallel result slots hold exactly the per-unit formatted contents in
work-unit index order — independently of the completion order. -/
theorem runPar_results_of_perm (adapter : Adapter) (fmt : String → String)
    (A : Nat → CompletionResponse) (hA : ∀ i p, adapter i p = Except.ok (A i))
    (n : Nat) (order : List Nat) (hperm : order.Perm (List.range n)) :
    (runPar adapter fmt n order).1.results =
      (List.range n).map (fun i => some (fmt (A i).content)) := by
  rw [runPar, runParAux_okA adapter fmt A hA]
  apply List.ext_get?
  intro m
  simp only [List.get?_eq_getElem?]
  by_cases hm : m < n
  · rw [foldl_set_getElem_mem _ _ _ _
      ((hperm.mem_iff).mpr (List.mem_range.mpr hm))
      (by rw [List.length_replicate]; exact hm)]
    rw [List.getElem?_map, List.getElem?_range hm]
    rfl
  · rw [List.getElem?_eq_none, List.getElem?_eq_none]
    · rw [List.length_map, List.length_range]; omega
    · rw [foldl_set_length, List.length_replicate]; omega

/-! ## Characterization of the sequential executor -/

/-- Splitting a sequential run: if the first segment fails the rest is
never executed, otherwise processing continues from the reached state. -/
theorem runSeqAux_append (adapter : Adapter) (fmt : String → String) :
    ∀ (l₁ l₂ : List Nat) (s : SeqState),
      runSeqAux adapter fmt (l₁ ++ l₂) s =
        match runSeqAux adapter fmt l₁ s with
        | (s₁, none) => runSeqAux adapter fmt l₂ s₁
        | (s₁, some e) => (s₁, some e) := by
  intro l₁
  induction l₁ with
  | nil => intro l₂ s; rfl
  | cons i rest ih =>
    intro l₂ s
    rw [List.cons_append, runSeqAux, runSeqAux]
    cases adapter i s.priorPage with
    | error e => rfl
    | ok r => exact ih l₂ _

/-- If every unit in the segment can only succeed, the sequential run over
it succeeds and dispatches exactly those units, in order. -/
theorem runSeqAux_ok_exists (adapter : Adapter) (fmt : String → String) :
    ∀ (l : List Nat) (s : SeqState),
      (∀ j ∈ l, ∀ p, ∃ r, adapter j p = Except.ok r) →
      (runSeqAux adapter fmt l s).2 = none ∧
        (runSeqAux adapter fmt l s).1.dispatched = s.dispatched ++ l := by
  intro l
  induction l with
  | nil => intro s _; exact ⟨rfl, (List.append_nil _).symm⟩
  | cons i rest ih =>
    intro s hok
    obtain ⟨r, hr⟩ := hok i (List.mem_cons_self i rest) s.priorPage
    rw [runSeqAux, hr]
    refine (ih _ (fun j hj p => hok j (List.mem_cons_of_mem i hj) p)).imp id ?_
    intro h
    rw [h]
    simp

/-- Full accounting for a sequential run whose adapter succeeds with a
response determined by the work-unit index: no error, the aggregated
markdown is the per-unit formatted content in index order, and the
counters are the sums of the reported tokens. -/
theorem runSeqAux_okA (adapter : Adapter) (fmt : String → String)
    (A : Nat → CompletionResponse) (hA : ∀ i p, adapter i p = Except.ok (A i)) :
    ∀ (l : List Nat) (s : SeqState),
      (runSeqAux adapter fmt l s).2 = none ∧
        (runSeqAux adapter fmt l s).1.aggregatedMarkdown =
          s.aggregatedMarkdown ++ l.map (fun j => fmt (A j).content) ∧
        (runSeqAux adapter fmt l s).1.inputTokenCount =
          s.inputTokenCount + (l.map fun j => (A j).inputTokens).sum ∧
        (runSeqAux adapter fmt l s).1.outputTokenCount =
          s.outputTokenCount + (l.map fun j => (A j).outputTokens).sum := by
  intro l
  induction l with
  | nil => intro s; simp [runSeqAux]
  | cons i rest ih =>
    intro s
    rw [runSeqAux, hA i s.priorPage]
    obtain ⟨h1, h2, h3, h4⟩ := ih
      { s with priorTrace := s.priorTrace ++ [s.priorPage],
               dispatched := s.dispatched ++ [i],
               priorPage := fmt (A i).content,
               inputTokenCount := s.inputTokenCount + (A i).inputTokens,
               outputTokenCount := s.outputTokenCount + (A i).outputTokens,
               aggregatedMarkdown := s.aggregatedMarkdown ++ [fmt (A i).content],
               tokenTrace := s.tokenTrace ++ [((A i).inputTokens, (A i).outputTokens)] }
    refine ⟨h1, ?_, ?_, ?_⟩
    · rw [h2]
      simp [List.append_assoc]
    · rw [h3]
      simp [Nat.add_assoc]
    · rw [h4]
      simp [Nat.add_assoc]

/-- The prior-page bookkeeping invariant: starting from a state where the
recorded trace extended by the pending `priorPage` equals `""` followed by
the aggregated outputs, the same holds at the end of the run — and on the
failure path the recorded trace itself equals `""` followed by the
aggregated outputs. -/
theorem runSeqAux_prior_inv (adapter : Adapter) (fmt : String → String) :
    ∀ (l : List Nat) (s : SeqState),
      s.priorTrace ++ [s.priorPage] = "" :: s.aggregatedMarkdown →
      ∃ t, (runSeqAux adapter fmt l s).1.priorTrace ++ t =
          "" :: (runSeqAux adapter fmt l s).1.aggregatedMarkdown ∧
        t.length ≤ 1 := by
  intro l
  induction l with
  | nil => intro s hinv; exact ⟨[s.priorPage], hinv, Nat.le_refl 1⟩
  | cons i rest ih =>
    intro s hinv
    rw [runSeqAux]
    cases adapter i s.priorPage with
    | error e =>
      refine ⟨[], ?_, Nat.zero_le 1⟩
      simpa using hinv
    | ok r =>
      apply ih
      simp only []
      rw [hinv]
      rfl

/-- The trace of dispatched prior pages only grows. -/
theorem runSeqAux_priorTrace_mono (adapter : Adapter) (fmt : String → String) :
    ∀ (l : List Nat) (s : SeqState),
      s.priorTrace.length ≤ (runSeqAux adapter fmt l s).1.priorTrace.length := by
  intro l
  induction l with
  | nil => intro s; exact Nat.le_refl _
  | cons i rest ih =>
    intro s
    rw [runSeqAux]
    cases adapter i s.priorPage with
    | error e => simp
    | ok r =>
      refine Nat.le_trans ?_ (ih _)
      simp

/-- At least one unit is dispatched when the work list is nonempty. -/
theorem runSeqAux_priorTrace_pos (adapter : Adapter) (fmt : String → String)
    (i : Nat) (l : List Nat) (s : SeqState) :
    0 < (runSeqAux adapter fmt (i :: l) s).1.priorTrace.length := by
  rw [runSeqAux]
  cases adapter i s.priorPage with
  | error e => simp
  | ok r =>
    refine Nat.lt_of_lt_of_le ?_ (runSeqAux_priorTrace_mono adapter fmt l _)
    simp

/-! ## Characterization of `documind` itself -/

/-- Writing one value per index of `range n` into a `replicate n none`
buffer, in any order covering every index, yields the indexed map. -/
theorem foldl_set_replicate_perm {α : Type} (f : Nat → α) (n : Nat) (order : List Nat)
    (hperm : order.Perm (List.range n)) :
    order.foldl (fun res j => res.set j (some (f j))) (List.replicate n (none : Option α)) =
      (List.range n).map (fun i => some (f i)) := by
  apply List.ext_get?
  intro m
  simp only [List.get?_eq_getElem?]
  by_cases hm : m < n
  · rw [foldl_set_getElem_mem _ _ _ _
      ((hperm.mem_iff).mpr (List.mem_range.mpr hm))
      (by rw [List.length_replicate]; exact hm)]
    rw [List.getElem?_map, List.getElem?_range hm]
    rfl
  · rw [List.getElem?_eq_none, List.getElem?_eq_none]
    · rw [List.length_map, List.length_range]; omega
    · rw [foldl_set_length, List.length_replicate]; omega

/-- `formattedPagesAux` maps each element to its page record, shifting the
index by the starting offset. -/
theorem formattedPagesAux_getElem (cfg : PagesCfg) :
    ∀ (agg : List String) (k i : Nat),
      (formattedPagesAux cfg k agg)[i]? =
        agg[i]?.map (fun el =>
          { content := el, page := resolvePageNumber cfg (k + i),
            contentLength := el.length }) := by
  intro agg
  induction agg with
  | nil => intro k i; simp [formattedPagesAux]
  | cons el rest ih =>
    intro k i
    cases i with
    | zero => simp [formattedPagesAux]
    | succ m =>
      simp only [formattedPagesAux, List.getElem?_cons_succ]
      rw [ih (k + 1) m]
      have hk : k + 1 + m = k + (m + 1) := by omega
      rw [hk]

/-- Indexing into `formattedPages`. -/
theorem formattedPages_getElem (cfg : PagesCfg) (agg : List String) (i : Nat) :
    (formattedPages cfg agg)[i]? =
      agg[i]?.map (fun el =>
        { content := el, page := resolvePageNumber cfg i, contentLength := el.length }) := by
  rw [formattedPages, formattedPagesAux_getElem]
  simp

/-- `formattedPages` preserves the number of pages. -/
theorem formattedPages_length (cfg : PagesCfg) (agg : List String) :
    (formattedPages cfg agg).length = agg.length := by
  rw [formattedPages]
  generalize 0 = k
  induction agg generalizing k with
  | nil => rfl
  | cons el rest ih => simp [formattedPagesAux, ih]

/-- The resolved page numbers of `formattedPages`, in order. -/
theorem formattedPages_map_page (cfg : PagesCfg) (agg : List String) :
    (formattedPages cfg agg).map Page.page =
      (List.range agg.length).map (fun i => resolvePageNumber cfg i) := by
  apply List.ext_get?
  intro m
  simp only [List.get?_eq_getElem?, List.getElem?_map]
  rw [formattedPages_getElem]
  by_cases hm : m < agg.length
  · rw [List.getElem?_eq_getElem hm, List.getElem?_range hm]
    rfl
  · rw [List.getElem?_eq_none (Nat.le_of_not_lt hm), List.getElem?_eq_none]
    · rfl
    · rw [List.length_range]
      omega

/-- The parallel run of `runPar` whose completion order covers all units:
no error, slots in index order, token counters summed over all units. -/
theorem runPar_of_perm (adapter : Adapter) (fmt : String → String)
    (A : Nat → CompletionResponse) (hA : ∀ i p, adapter i p = Except.ok (A i))
    (n : Nat) (order : List Nat) (hperm : order.Perm (List.range n)) :
    runPar adapter fmt n order =
      ({ results := (List.range n).map (fun i => some (fmt (A i).content)),
         priorPage := order.foldl (fun _ j => fmt (A j).content) "",
         inputTokenCount := ((List.range n).map fun i => (A i).inputTokens).sum,
         outputTokenCount := ((List.range n).map fun i => (A i).outputTokens).sum,
         tokenTrace := order.map fun j => ((A j).inputTokens, (A j).outputTokens) },
       none) := by
  rw [runPar, runParAux_okA adapter fmt A hA]
  simp only [Prod.mk.injEq, ParState.mk.injEq, Nat.zero_add, List.nil_append]
  refine ⟨⟨?_, trivial, ?_, ?_, trivial⟩, trivial⟩
  · exact foldl_set_replicate_perm _ n order hperm
  · exact (hperm.map fun j => (A j).inputTokens).sum_eq
  · exact (hperm.map fun j => (A j).outputTokens).sum_eq

/-- Full characterization of a parallel-mode `documind` run in which every
adapter call succeeds with a unit-determined response and the completions
finish in an arbitrary order covering all units. -/
theorem documind_par_spec (args : DocArgs) (adapter : Adapter)
    (A : Nat → CompletionResponse) (fmt : String → String) (order : List Nat)
    (hmode : args.maintainFormat = false)
    (hkey : ¬ args.openaiAPIKey = "") (hfile : ¬ args.filePath = "")
    (hperm : order.Perm (List.range args.n))
    (hA : ∀ i p, adapter i p = Except.ok (A i)) :
    documind args adapter fmt order =
      { output := Except.ok
          { fileName := sanitizeFileName args.localPath,
            inputTokens := ((List.range args.n).map fun i => (A i).inputTokens).sum,
            outputTokens := ((List.range args.n).map fun i => (A i).outputTokens).sum,
            pages := formattedPages (sortCfg args.pagesToConvertAsImages)
              ((List.range args.n).map fun i => fmt (A i).content) },
        tempDirRemoved := args.cleanup,
        pagesArgAfterCall := sortCfg args.pagesToConvertAsImages } := by
  simp only [documind, if_neg hkey, if_neg hfile, hmode, Bool.false_eq_true, if_false]
  rw [runPar_of_perm adapter fmt A hA args.n order hperm]
  dsimp only []
  rw [filterMap_id_map_some]

/-- Full characterization of a sequential-mode (maintain-format) `documind`
run in which every adapter call succeeds with a unit-determined response. -/
theorem documind_seq_spec (args : DocArgs) (adapter : Adapter)
    (A : Nat → CompletionResponse) (fmt : String → String) (order : List Nat)
    (hmode : args.maintainFormat = true)
    (hkey : ¬ args.openaiAPIKey = "") (hfile : ¬ args.filePath = "")
    (hA : ∀ i p, adapter i p = Except.ok (A i)) :
    documind args adapter fmt order =
      { output := Except.ok
          { fileName := sanitizeFileName args.localPath,
            inputTokens := ((List.range args.n).map fun i => (A i).inputTokens).sum,
            outputTokens := ((List.range args.n).map fun i => (A i).outputTokens).sum,
            pages := formattedPages (sortCfg args.pagesToConvertAsImages)
              ((List.range args.n).map fun i => fmt (A i).content) },
        tempDirRemoved := args.cleanup,
        pagesArgAfterCall := sortCfg args.pagesToConvertAsImages } := by
  obtain ⟨herr, hagg, hin, hout2⟩ := runSeqAux_okA adapter fmt A hA (List.range args.n) initSeqState
  have herr' : (runSeq adapter fmt args.n).2 = none := herr
  have hagg' : (runSeq adapter fmt args.n).1.aggregatedMarkdown =
      (List.range args.n).map (fun j => fmt (A j).content) := by
    rw [runSeq, hagg]
    exact List.nil_append _
  have hin' : (runSeq adapter fmt args.n).1.inputTokenCount =
      ((List.range args.n).map fun j => (A j).inputTokens).sum := by
    rw [runSeq, hin]
    exact Nat.zero_add _
  have hout2' : (runSeq adapter fmt args.n).1.outputTokenCount =
      ((List.range args.n).map fun j => (A j).outputTokens).sum := by
    rw [runSeq, hout2]
    exact Nat.zero_add _
  simp only [documind, if_neg hkey, if_neg hfile, hmode, if_true]
  rcases hrs : runSeq adapter fmt args.n with ⟨s, err⟩
  rw [hrs] at herr' hagg' hin' hout2'
  simp only [] at herr' hagg' hin' hout2'
  subst herr'
  simp only [hagg', hin', hout2']

/-- Every successful `documind` run, in either mode and with an arbitrary
adapter, returns the sanitized file name and pages built by
`formattedPages` over the sorted page configuration. -/
theorem documind_ok_shape (args : DocArgs) (adapter : Adapter) (fmt : String → String)
    (order : List Nat) (out : DocOutput)
    (h : (documind args adapter fmt order).output = Except.ok out) :
    out.fileName = sanitizeFileName args.localPath ∧
    ∃ agg, out.pages = formattedPages (sortCfg args.pagesToConvertAsImages) agg := by
  unfold documind at h
  split at h
  · simp at h
  split at h
  · simp at h
  dsimp only [] at h
  split at h
  · simp at h
  · rename_i agg inTok outTok heq
    dsimp only [] at h
    injection h with h2
    exact ⟨by rw [← h2], agg, by rw [← h2]⟩

/-- The caller-visible `pagesToConvertAsImages` value after a run that
passes the validators is always the sorted configuration. -/
theorem documind_pagesArg (args : DocArgs) (adapter : Adapter) (fmt : String → String)
    (order : List Nat) (hkey : ¬ args.openaiAPIKey = "") (hfile : ¬ args.filePath = "") :
    (documind args adapter fmt order).pagesArgAfterCall =
      sortCfg args.pagesToConvertAsImages := by
  unfold documind
  rw [if_neg hkey, if_neg hfile]
  dsimp only []
  split <;> rfl

/-- Splitting a parallel completion order: if every completion in the first
segment succeeds, processing continues; the first failure short-circuits. -/
theorem runParAux_append (adapter : Adapter) (fmt : String → String) :
    ∀ (l₁ l₂ : List Nat) (s : ParState),
      runParAux adapter fmt (l₁ ++ l₂) s =
        match runParAux adapter fmt l₁ s with
        | (s₁, none) => runParAux adapter fmt l₂ s₁
        | (s₁, some e) => (s₁, some e) := by
  intro l₁
  induction l₁ with
  | nil => intro l₂ s; rfl
  | cons j rest ih =>
    intro l₂ s
    rw [List.cons_append, runParAux, runParAux]
    cases adapter j s.priorPage with
    | error e => rfl
    | ok r => exact ih l₂ _

/-- If every completion in the order can only succeed, the parallel run
produces no error. -/
theorem runParAux_ok_exists (adapter : Adapter) (fmt : String → String) :
    ∀ (l : List Nat) (s : ParState),
      (∀ j ∈ l, ∀ p, ∃ r, adapter j p = Except.ok r) →
      (runParAux adapter fmt l s).2 = none := by
  intro l
  induction l with
  | nil => intro s _; rfl
  | cons j rest ih =>
    intro s hok
    obtain ⟨r, hr⟩ := hok j (List.mem_cons_self j rest) s.priorPage
    rw [runParAux, hr]
    exact ih _ (fun j2 hj p => hok j2 (List.mem_cons_of_mem j hj) p)

/-- `formattedPages` over an index-ordered content list is the
index-ordered list of page records. -/
theorem formattedPages_map_range (cfg : PagesCfg) (g : Nat → String) (n : Nat) :
    formattedPages cfg ((List.range n).map g) =
      (List.range n).map (fun i =>
        { content := g i, page := resolvePageNumber cfg i,
          contentLength := (g i).length }) := by
  apply List.ext_get?
  intro m
  simp only [List.get?_eq_getElem?, formattedPages_getElem, List.getElem?_map]
  by_cases hm : m < n
  · rw [List.getElem?_range hm]
    rfl
  · rw [List.getElem?_eq_none (by rw [List.length_range]; omega)]
    rfl

/-! ## Concrete fixtures used by witnesses and counterexamples -/

/-- A unit-determined adapter response: distinct content and token counts
per work unit. -/
def exResp (i : Nat) : CompletionResponse :=
  { content := "page" ++ toString i, inputTokens := i + 1, outputTokens := 2 * i + 1 }

/-- An adapter that always succeeds with `exResp`. -/
def exAdapterOk : Adapter := fun i _ => Except.ok (exResp i)

/-- An adapter that fails on work unit 1 (the second of the units) and
succeeds elsewhere. -/
def exAdapterFail1 : Adapter := fun i _ =>
  if i = 1 then Except.error "boom" else Except.ok (exResp i)

/-- An adapter that always fails. -/
def exAdapterFailAll : Adapter := fun _ _ => Except.error "boom"

/-- Parallel-mode arguments: all pages, 3 images. -/
def exArgsPar3 : DocArgs :=
  { cleanup := true, maintainFormat := false, openaiAPIKey := "key",
    filePath := "report.pdf", localPath := "/tmp/documind-file-1000/report.pdf",
    pagesToConvertAsImages := .num (-1), n := 3 }

/-- Parallel-mode arguments: all pages, 5 images. -/
def exArgsPar5 : DocArgs :=
  { cleanup := true, maintainFormat := false, openaiAPIKey := "key",
    filePath := "report.pdf", localPath := "/tmp/documind-file-1000/report.pdf",
    pagesToConvertAsImages := .num (-1), n := 5 }

/-- Sequential-mode (maintain-format) arguments: all pages, 5 images. -/
def exArgsSeq5 : DocArgs :=
  { cleanup := true, maintainFormat := true, openaiAPIKey := "key",
    filePath := "report.pdf", localPath := "/tmp/documind-file-1000/report.pdf",
    pagesToConvertAsImages := .num (-1), n := 5 }

/-- Parallel-mode arguments with an explicit one-element page list but two
converted images: the mismatch case of C4. -/
def exArgsMismatch : DocArgs :=
  { cleanup := true, maintainFormat := false, openaiAPIKey := "key",
    filePath := "report.pdf", localPath := "/tmp/documind-file-1000/report.pdf",
    pagesToConvertAsImages := .arr [2], n := 2 }

/-! ## C1 -/

/-- C1: in parallel (non-maintainFormat) mode, for every list of work units
and every order in which the completion-adapter calls finish (any
permutation of the unit indices), the final output's pages are in
work-unit index order: pages[i] carries the formatted content of work unit
i and the page number `resolvePageNumber i`, never the content of whichever
unit happened to finish i-th. -/
theorem claim1_parallel_output_in_index_order
    (args : DocArgs) (adapter : Adapter) (A : Nat → CompletionResponse)
    (fmt : String → String) (order : List Nat)
    (hmode : args.maintainFormat = false)
    (hkey : ¬ args.openaiAPIKey = "") (hfile : ¬ args.filePath = "")
    (hperm : order.Perm (List.range args.n))
    (hA : ∀ i p, adapter i p = Except.ok (A i)) :
    (documind args adapter fmt order).output = Except.ok
      { fileName := sanitizeFileName args.localPath,
        inputTokens := ((List.range args.n).map fun i => (A i).inputTokens).sum,
        outputTokens := ((List.range args.n).map fun i => (A i).outputTokens).sum,
        pages := (List.range args.n).map fun i =>
          { content := fmt (A i).content,
            page := resolvePageNumber (sortCfg args.pagesToConvertAsImages) i,
            contentLength := (fmt (A i).content).length } } := by
  rw [documind_par_spec args adapter A fmt order hmode hkey hfile hperm hA]
  rw [formattedPages_map_range]

/-- Witness for C1: a concrete 3-unit parallel run whose completions finish
in the order 2, 0, 1 still yields pages in unit order 0, 1, 2. -/
theorem claim1_witness :
    (documind exArgsPar3 exAdapterOk id [2, 0, 1]).output = Except.ok
      { fileName := "report",
        inputTokens := ((List.range 3).map fun i => (exResp i).inputTokens).sum,
        outputTokens := ((List.range 3).map fun i => (exResp i).outputTokens).sum,
        pages := (List.range 3).map fun i =>
          { content := id (exResp i).content,
            page := resolvePageNumber (sortCfg exArgsPar3.pagesToConvertAsImages) i,
            contentLength := (id (exResp i).content).length } } := by
  have h := claim1_parallel_output_in_index_order exArgsPar3 exAdapterOk exResp id
    [2, 0, 1] rfl (by decide) (by decide) (by decide) (fun i p => rfl)
  rw [h]
  decide

/-! ## C2 -/

/-- C2 counterexample: in a parallel run of 5 units where unit 1 (the
second unit) fails and all others succeed, the run does NOT produce a
final output with the successful pages — it fails with the adapter error,
because `processPage` rethrows and `Promise.all` rejects. -/
theorem claim2_counterexample :
    (documind exArgsPar5 exAdapterFail1 id [0, 1, 2, 3, 4]).output =
      Except.error "boom" := by
  decide

/-- C2 amended: in parallel mode a single adapter failure fails the whole
run with that error (the error of the first failing completion); no
partial output is produced.  The segment of completions finishing before
the failure may be arbitrary, as may the units still pending. -/
theorem claim2_amended_parallel_failure_fails_run
    (args : DocArgs) (adapter : Adapter) (fmt : String → String)
    (order₁ order₂ : List Nat) (k : Nat) (e : Err)
    (hmode : args.maintainFormat = false)
    (hkey : ¬ args.openaiAPIKey = "") (hfile : ¬ args.filePath = "")
    (hok : ∀ j ∈ order₁, ∀ p, ∃ r, adapter j p = Except.ok r)
    (hfailk : ∀ p, adapter k p = Except.error e) :
    (documind args adapter fmt (order₁ ++ k :: order₂)).output = Except.error e := by
  simp only [documind, if_neg hkey, if_neg hfile, hmode, Bool.false_eq_true, if_false]
  rw [runPar, runParAux_append]
  have herr := runParAux_ok_exists adapter fmt order₁
    { results := List.replicate args.n none, priorPage := "",
      inputTokenCount := 0, outputTokenCount := 0, tokenTrace := [] } hok
  rcases hr : runParAux adapter fmt order₁
      { results := List.replicate args.n none, priorPage := "",
        inputTokenCount := 0, outputTokenCount := 0, tokenTrace := [] } with ⟨s₁, err₁⟩
  rw [hr] at herr
  dsimp only [] at herr
  subst herr
  dsimp only []
  rw [runParAux, hfailk s₁.priorPage]

/-- Witness for C2 amended: unit 0 completes first, then unit 1 fails; the
concrete 5-unit parallel run fails with the unit-1 error. -/
theorem claim2_witness :
    (documind exArgsPar5 exAdapterFail1 id ([0] ++ 1 :: [2, 3, 4])).output =
      Except.error "boom" := by
  exact claim2_amended_parallel_failure_fails_run exArgsPar5 exAdapterFail1 id
    [0] [2, 3, 4] 1 "boom" rfl (by decide) (by decide)
    (by
      intro j hj p
      have hj0 : j = 0 := by
        cases hj with
        | head => rfl
        | tail _ h => cases h
      exact ⟨exResp 0, by rw [hj0]; rfl⟩)
    (fun p => rfl)

/-! ## C3 -/

/-- C3 counterexample: a failing run with `cleanup = true` does NOT remove
the temporary directory — the `fs.remove` at line 188 sits after the
processing code on the success path only, with no try/finally around the
run. -/
theorem claim3_counterexample :
    exArgsSeq5.cleanup = true ∧
    (documind exArgsSeq5 exAdapterFailAll id []).output = Except.error "boom" ∧
    (documind exArgsSeq5 exAdapterFailAll id []).tempDirRemoved = false := by
  decide

/-- C3 amended: the temporary working directory is removed exactly when
`cleanup` is true AND the run succeeds; a failed run never reaches the
cleanup step, and with `cleanup = false` the directory is never removed. -/
theorem claim3_amended_cleanup_iff_success
    (args : DocArgs) (adapter : Adapter) (fmt : String → String) (order : List Nat) :
    (documind args adapter fmt order).tempDirRemoved = true ↔
      (args.cleanup = true ∧
        ∃ out, (documind args adapter fmt order).output = Except.ok out) := by
  unfold documind
  split
  · simp
  split
  · simp
  dsimp only []
  split
  · simp
  · simp

/-! ## C4 -/

/-- C4 counterexample: with an explicit one-element page list `[2]` but two
converted images, the run does NOT fail with a configuration error — it
succeeds, calls the adapter for both images, and silently gives the second
page an undefined (`none`) page number. -/
theorem claim4_counterexample :
    (documind exArgsMismatch exAdapterOk id [0, 1]).output = Except.ok
      { fileName := "report", inputTokens := 3, outputTokens := 4,
        pages := [{ content := "page0", page := some 2, contentLength := 5 },
                  { content := "page1", page := none, contentLength := 5 }] } := by
  decide

/-- C4 amended: no length check is performed between an explicit
`pagesToConvertAsImages` list and the number of converted images.  The run
proceeds for every image; pages whose index falls beyond the end of the
sorted list get an undefined (`none`) page number, and list entries beyond
the image count are simply never used. -/
theorem claim4_amended_no_length_check
    (args : DocArgs) (adapter : Adapter) (A : Nat → CompletionResponse)
    (fmt : String → String) (order : List Nat) (l : List Int)
    (hcfg : args.pagesToConvertAsImages = PagesCfg.arr l)
    (hmode : args.maintainFormat = false)
    (hkey : ¬ args.openaiAPIKey = "") (hfile : ¬ args.filePath = "")
    (hperm : order.Perm (List.range args.n))
    (hA : ∀ i p, adapter i p = Except.ok (A i)) :
    (documind args adapter fmt order).output = Except.ok
      { fileName := sanitizeFileName args.localPath,
        inputTokens := ((List.range args.n).map fun i => (A i).inputTokens).sum,
        outputTokens := ((List.range args.n).map fun i => (A i).outputTokens).sum,
        pages := (List.range args.n).map fun i =>
          { content := fmt (A i).content, page := (sortAsc l)[i]?,
            contentLength := (fmt (A i).content).length } } ∧
    ∀ i, (sortAsc l).length ≤ i → (sortAsc l)[i]? = none := by
  constructor
  · rw [documind_par_spec args adapter A fmt order hmode hkey hfile hperm hA, hcfg]
    rw [formattedPages_map_range]
    rfl
  · intro i hi
    exact List.getElem?_eq_none hi

/-- Witness for C4 amended: the mismatch fixture (list `[2]`, two images)
runs to completion with an undefined page number on the second page. -/
theorem claim4_witness :
    (documind exArgsMismatch exAdapterOk id [0, 1]).output = Except.ok
      { fileName := sanitizeFileName exArgsMismatch.localPath,
        inputTokens := ((List.range 2).map fun i => (exResp i).inputTokens).sum,
        outputTokens := ((List.range 2).map fun i => (exResp i).outputTokens).sum,
        pages := (List.range 2).map fun i =>
          { content := id (exResp i).content, page := (sortAsc [2])[i]?,
            contentLength := (id (exResp i).content).length } } ∧
    (sortAsc [2])[1]? = none := by
  have h := claim4_amended_no_length_check exArgsMismatch exAdapterOk exResp id
    [0, 1] [2] rfl rfl (by decide) (by decide) (by decide) (fun i p => rfl)
  exact ⟨h.1, h.2 1 (by decide)⟩

/-! ## C5 -/

/-- C5: in maintain-format (sequential) mode the `priorPage` argument
passed to the adapter for work unit 0 is the empty string, and for every
later dispatched unit i+1 it is exactly the formatted markdown output
produced for unit i (entry i of the aggregated outputs, which is always
present). -/
theorem claim5_prior_page_threading (adapter : Adapter) (fmt : String → String)
    (n : Nat) (h : 0 < n) :
    ((runSeq adapter fmt n).1.priorTrace)[0]? = some "" ∧
    ∀ i, i + 1 < (runSeq adapter fmt n).1.priorTrace.length →
      ((runSeq adapter fmt n).1.priorTrace)[i + 1]? =
        ((runSeq adapter fmt n).1.aggregatedMarkdown)[i]? ∧
      ∃ m, ((runSeq adapter fmt n).1.aggregatedMarkdown)[i]? = some m := by
  obtain ⟨t, hinv, hlen⟩ := runSeqAux_prior_inv adapter fmt (List.range n) initSeqState rfl
  have hinv' : (runSeq adapter fmt n).1.priorTrace ++ t =
      "" :: (runSeq adapter fmt n).1.aggregatedMarkdown := hinv
  have hpos : 0 < (runSeq adapter fmt n).1.priorTrace.length := by
    obtain ⟨m, hm⟩ : ∃ m, n = m + 1 := ⟨n - 1, by omega⟩
    subst hm
    rw [runSeq, List.range_succ_eq_map]
    exact runSeqAux_priorTrace_pos adapter fmt 0 _ initSeqState
  have hlen2 : (runSeq adapter fmt n).1.priorTrace.length + t.length =
      (runSeq adapter fmt n).1.aggregatedMarkdown.length + 1 := by
    have hc := congrArg List.length hinv'
    simpa using hc
  constructor
  · have h0 := congrArg (fun l => l[0]?) hinv'
    dsimp only [] at h0
    rw [List.getElem?_append_left hpos] at h0
    simpa using h0
  · intro i hi
    have h1 := congrArg (fun l => l[i + 1]?) hinv'
    dsimp only [] at h1
    rw [List.getElem?_append_left hi, List.getElem?_cons_succ] at h1
    have hia : i < (runSeq adapter fmt n).1.aggregatedMarkdown.length := by omega
    exact ⟨h1, _, List.getElem?_eq_getElem hia⟩

/-- An adapter whose content depends on the prior-page argument, making
context threading observable. -/
def exSeqAdapter : Adapter := fun i p =>
  Except.ok { content := "u" ++ toString i ++ ":" ++ p, inputTokens := 1, outputTokens := 1 }

/-- Witness for C5: in a concrete 2-unit sequential run, unit 0 receives
`""` and unit 1 receives exactly unit 0's formatted output. -/
theorem claim5_witness :
    ((runSeq exSeqAdapter id 2).1.priorTrace)[0]? = some "" ∧
    ((runSeq exSeqAdapter id 2).1.priorTrace)[1]? =
      ((runSeq exSeqAdapter id 2).1.aggregatedMarkdown)[0]? :=
  ⟨(claim5_prior_page_threading exSeqAdapter id 2 (by decide)).1,
   ((claim5_prior_page_threading exSeqAdapter id 2 (by decide)).2 0 (by decide)).1⟩

/-! ## C6 -/

/-- C6: in maintain-format (sequential) mode, if the adapter call for work
unit k fails (and all earlier units can only succeed), the run fails with
exactly that unit's error and the dispatched units are exactly 0..k — no
later unit is ever dispatched. -/
theorem claim6_sequential_fail_fast
    (adapter : Adapter) (fmt : String → String) (n k : Nat) (e : Err)
    (hk : k < n)
    (hfailk : ∀ p, adapter k p = Except.error e)
    (hok : ∀ j, j < k → ∀ p, ∃ r, adapter j p = Except.ok r) :
    (runSeq adapter fmt n).2 = some e ∧
    (runSeq adapter fmt n).1.dispatched = List.range (k + 1) := by
  have htake : (List.range n).take (k + 1) = List.range (k + 1) := by
    rw [List.take_range]
    congr 1
    omega
  have hsplit : List.range n = List.range (k + 1) ++ (List.range n).drop (k + 1) := by
    conv_lhs => rw [← List.take_append_drop (k + 1) (List.range n)]
    rw [htake]
  obtain ⟨herr1, hdisp1⟩ := runSeqAux_ok_exists adapter fmt (List.range k) initSeqState
    (fun j hj p => hok j (List.mem_range.mp hj) p)
  rcases hr : runSeqAux adapter fmt (List.range k) initSeqState with ⟨s₁, err₁⟩
  rw [hr] at herr1 hdisp1
  dsimp only [] at herr1 hdisp1
  subst herr1
  have hk1 : runSeqAux adapter fmt (List.range (k + 1)) initSeqState =
      ({ s₁ with priorTrace := s₁.priorTrace ++ [s₁.priorPage],
                 dispatched := s₁.dispatched ++ [k] }, some e) := by
    rw [List.range_succ, runSeqAux_append, hr]
    dsimp only []
    rw [runSeqAux, hfailk s₁.priorPage]
  have hfull : runSeq adapter fmt n =
      ({ s₁ with priorTrace := s₁.priorTrace ++ [s₁.priorPage],
                 dispatched := s₁.dispatched ++ [k] }, some e) := by
    rw [runSeq, hsplit, runSeqAux_append, hk1]
  rw [hfull]
  refine ⟨rfl, ?_⟩
  dsimp only []
  rw [hdisp1]
  show ([] : List Nat) ++ List.range k ++ [k] = List.range (k + 1)
  rw [List.nil_append, ← List.range_succ]

/-- Witness for C6: in a concrete 5-unit sequential run where unit 1
fails, the run fails with that error and only units 0 and 1 were ever
dispatched. -/
theorem claim6_witness :
    (runSeq exAdapterFail1 id 5).2 = some "boom" ∧
    (runSeq exAdapterFail1 id 5).1.dispatched = List.range 2 :=
  claim6_sequential_fail_fast exAdapterFail1 id 5 1 "boom" (by decide)
    (fun p => rfl)
    (fun j hj p => ⟨exResp j, by
      have hj0 : j = 0 := by omega
      subst hj0
      rfl⟩)

/-! ## C7 -/

/-- Parallel-mode arguments with the explicit, already sorted page list
`[2, 5, 7]` and 3 images. -/
def exArgsList3 : DocArgs :=
  { cleanup := true, maintainFormat := false, openaiAPIKey := "key",
    filePath := "report.pdf", localPath := "/tmp/documind-file-1000/report.pdf",
    pagesToConvertAsImages := .arr [2, 5, 7], n := 3 }

/-- Parallel-mode arguments with the single page number `4` and 3 images. -/
def exArgsSingle3 : DocArgs :=
  { cleanup := true, maintainFormat := false, openaiAPIKey := "key",
    filePath := "report.pdf", localPath := "/tmp/documind-file-1000/report.pdf",
    pagesToConvertAsImages := .num 4, n := 3 }

/-- C7: resolved page numbers follow the page-selection configuration:
with `-1` and 3 units the pages are numbered `[1, 2, 3]`; with the sorted
list `[2, 5, 7]` they are `[2, 5, 7]`; with the single number `4` they are
`[4, 4, 4]`; and in general every successful run's i-th page carries
`resolvePageNumber` of the (sorted) configuration at index i. -/
theorem claim7_page_number_resolution :
    (Except.map (fun o => o.pages.map Page.page)
        (documind exArgsPar3 exAdapterOk id [0, 1, 2]).output =
      Except.ok [some 1, some 2, some 3]) ∧
    (Except.map (fun o => o.pages.map Page.page)
        (documind exArgsList3 exAdapterOk id [0, 1, 2]).output =
      Except.ok [some 2, some 5, some 7]) ∧
    (Except.map (fun o => o.pages.map Page.page)
        (documind exArgsSingle3 exAdapterOk id [0, 1, 2]).output =
      Except.ok [some 4, some 4, some 4]) ∧
    ∀ (args : DocArgs) (adapter : Adapter) (fmt : String → String)
      (order : List Nat) (out : DocOutput),
      (documind args adapter fmt order).output = Except.ok out →
      out.pages.map Page.page =
        (List.range out.pages.length).map
          (fun i => resolvePageNumber (sortCfg args.pagesToConvertAsImages) i) := by
  refine ⟨by decide, by decide, by decide, ?_⟩
  intro args adapter fmt order out hout
  obtain ⟨-, agg, hp⟩ := documind_ok_shape args adapter fmt order out hout
  rw [hp, formattedPages_map_page, formattedPages_length]

/-- The full output of the `[2, 5, 7]` example run, used to witness C7's
general clause at a concrete input. -/
def exOutList3 : DocOutput :=
  { fileName := "report", inputTokens := 6, outputTokens := 9,
    pages := [{ content := "page0", page := some 2, contentLength := 5 },
              { content := "page1", page := some 5, contentLength := 5 },
              { content := "page2", page := some 7, contentLength := 5 }] }

/-- Witness for C7: the general page-number clause at the concrete
`[2, 5, 7]` run. -/
theorem claim7_witness :
    exOutList3.pages.map Page.page =
      (List.range exOutList3.pages.length).map
        (fun i => resolvePageNumber (sortCfg exArgsList3.pagesToConvertAsImages) i) :=
  claim7_page_number_resolution.2.2.2 exArgsList3 exAdapterOk id [0, 1, 2] exOutList3
    (by decide)

/-! ## C8 -/

/-- C8: for every run that produces a final output (either mode; in
parallel mode the completions cover all units), the output's token totals
are the exact sums of the per-unit adapter-reported token counts over all
units, which are exactly the units contributing to the output. -/
theorem claim8_token_totals
    (args : DocArgs) (adapter : Adapter) (A : Nat → CompletionResponse)
    (fmt : String → String) (order : List Nat) (out : DocOutput)
    (hA : ∀ i p, adapter i p = Except.ok (A i))
    (hperm : args.maintainFormat = false → order.Perm (List.range args.n))
    (hout : (documind args adapter fmt order).output = Except.ok out) :
    out.inputTokens = ((List.range args.n).map fun i => (A i).inputTokens).sum ∧
    out.outputTokens = ((List.range args.n).map fun i => (A i).outputTokens).sum := by
  by_cases hkey : args.openaiAPIKey = ""
  · unfold documind at hout
    rw [if_pos hkey] at hout
    exact absurd hout (by simp)
  by_cases hfile : args.filePath = ""
  · unfold documind at hout
    rw [if_neg hkey, if_pos hfile] at hout
    exact absurd hout (by simp)
  cases hmode : args.maintainFormat with
  | true =>
    rw [documind_seq_spec args adapter A fmt order hmode hkey hfile hA] at hout
    dsimp only [] at hout
    injection hout with h2
    rw [← h2]
    exact ⟨rfl, rfl⟩
  | false =>
    rw [documind_par_spec args adapter A fmt order hmode hkey hfile (hperm hmode) hA] at hout
    dsimp only [] at hout
    injection hout with h2
    rw [← h2]
    exact ⟨rfl, rfl⟩

/-- The full output of a successful 5-unit sequential run with the
unit-determined adapter. -/
def exOutSeq5 : DocOutput :=
  { fileName := "report", inputTokens := 15, outputTokens := 25,
    pages := [{ content := "page0", page := some 1, contentLength := 5 },
              { content := "page1", page := some 2, contentLength := 5 },
              { content := "page2", page := some 3, contentLength := 5 },
              { content := "page3", page := some 4, contentLength := 5 },
              { content := "page4", page := some 5, contentLength := 5 }] }

/-- Witness for C8: the concrete 5-unit sequential run's totals are the
sums 1+2+3+4+5 and 1+3+5+7+9 of the per-unit reported tokens. -/
theorem claim8_witness :
    exOutSeq5.inputTokens = ((List.range 5).map fun i => (exResp i).inputTokens).sum ∧
    exOutSeq5.outputTokens = ((List.range 5).map fun i => (exResp i).outputTokens).sum :=
  claim8_token_totals exArgsSeq5 exAdapterOk exResp id [] exOutSeq5
    (fun i p => rfl) (fun h => Bool.noConfusion h) (by decide)

/-! ## C9 -/

/-- C9: the output's `fileName` is the sanitized base name of the local
file: non-word characters stripped, whitespace runs replaced by `_`,
lowercased, truncated to 255 characters; in particular
`"My Report (v2).pdf"` yields `"my_report_v2"`. -/
theorem claim9_filename_sanitization
    (args : DocArgs) (adapter : Adapter) (fmt : String → String)
    (order : List Nat) (out : DocOutput)
    (hout : (documind args adapter fmt order).output = Except.ok out) :
    out.fileName = String.mk
      (((collapseWs (stripNonWord
          (beforeFirstDot (lastPathComponent args.localPath)).data)).map
            Char.toLower).take 255) ∧
    sanitizeFileName "/tmp/documind-file-1234/My Report (v2).pdf" = "my_report_v2" := by
  refine ⟨?_, by decide⟩
  rw [(documind_ok_shape args adapter fmt order out hout).1]
  rfl

/-- Witness for C9 at the concrete sequential fixture. -/
theorem claim9_witness :
    exOutSeq5.fileName = String.mk
      (((collapseWs (stripNonWord
          (beforeFirstDot (lastPathComponent exArgsSeq5.localPath)).data)).map
            Char.toLower).take 255) ∧
    sanitizeFileName "/tmp/documind-file-1234/My Report (v2).pdf" = "my_report_v2" :=
  claim9_filename_sanitization exArgsSeq5 exAdapterOk id [] exOutSeq5 (by decide)

/-! ## C10 -/

/-- Parallel-mode arguments whose caller-supplied page array is not
sorted. -/
def exArgsUnsorted : DocArgs :=
  { cleanup := true, maintainFormat := false, openaiAPIKey := "key",
    filePath := "report.pdf", localPath := "/tmp/documind-file-1000/report.pdf",
    pagesToConvertAsImages := .arr [3, 1, 2], n := 3 }

/-- C10: when `pagesToConvertAsImages` is an array, any `documind` call
that passes the validators leaves the caller's array sorted ascending (a
permutation of the original) — an observable in-place mutation, e.g.
`[3, 1, 2]` becomes `[1, 2, 3]`. -/
theorem claim10_sorts_caller_array_in_place
    (args : DocArgs) (adapter : Adapter) (fmt : String → String) (order : List Nat)
    (l : List Int)
    (hcfg : args.pagesToConvertAsImages = PagesCfg.arr l)
    (hkey : ¬ args.openaiAPIKey = "") (hfile : ¬ args.filePath = "") :
    (documind args adapter fmt order).pagesArgAfterCall = PagesCfg.arr (sortAsc l) ∧
    List.Sorted (· ≤ ·) (sortAsc l) ∧
    (sortAsc l).Perm l ∧
    sortAsc [3, 1, 2] ≠ [3, 1, 2] := by
  refine ⟨?_, ?_, ?_, by decide⟩
  · rw [documind_pagesArg args adapter fmt order hkey hfile, hcfg]
    rfl
  · exact List.sorted_insertionSort (· ≤ ·) l
  · exact List.perm_insertionSort (· ≤ ·) l

/-- Witness for C10: the concrete run with caller array `[3, 1, 2]`. -/
theorem claim10_witness :
    (documind exArgsUnsorted exAdapterOk id [0, 1, 2]).pagesArgAfterCall =
      PagesCfg.arr (sortAsc [3, 1, 2]) ∧
    List.Sorted (· ≤ ·) (sortAsc [3, 1, 2]) ∧
    (sortAsc [3, 1, 2]).Perm [3, 1, 2] ∧
    sortAsc [3, 1, 2] ≠ [3, 1, 2] :=
  claim10_sorts_caller_array_in_place exArgsUnsorted exAdapterOk id [0, 1, 2]
    [3, 1, 2] rfl (by decide) (by decide)

end Documind
